import Mathlib

/-!
Shallow embedding of the damage-resolution pipeline from
`src/module/pipelines/damage-pipeline.mjs`.

Numbers are modelled as rationals (`ℚ`); a JavaScript numeric value that may
be `NaN` (e.g. `undefined + 3`) is modelled as `JsNum := Option ℚ`, with
`none` standing for `NaN` and arithmetic propagating it.  JavaScript `Map`s
are modelled as association lists with a `mapSet` operation matching
`Map.prototype.set` (update in place if the key exists, else append), and a
JS `Set` of traits as a `List String` queried by membership.  Hooks
(`Hooks.call`) only notify external listeners; they are modelled as no-ops,
so every theorem below describes the pipeline absent hook interference.
-/

namespace ProjectFU

/-- Modelled from the spec: the affinity tiers, an ordered enumeration
(`FU.affValue` lives in `helpers/config.mjs`, which is not under `src/`).
The spec lists the tiers {vulnerability, none, resistance, immunity,
absorption}. -/
inductive Affinity where
  | vulnerability
  | none
  | resistance
  | immunity
  | absorption
deriving DecidableEq, Repr

/-- The table `affinityDamageModifier` of `damage-pipeline.mjs` lines 87-93,
mapping each affinity tier to its damage multiplier. -/
def affinityDamageModifier : Affinity → ℚ
  | .vulnerability => 2
  | .none => 1
  | .resistance => (1 : ℚ) / 2
  | .immunity => 0
  | .absorption => -1

/-- A JavaScript number that may be `NaN`: `none` models `NaN`. -/
def JsNum := Option ℚ
deriving DecidableEq, Repr

/-- JavaScript addition: `NaN` propagates. -/
def jadd : JsNum → JsNum → JsNum
  | Option.some a, Option.some b => Option.some (a + b)
  | _, _ => Option.none

/-- JavaScript multiplication: `NaN` propagates. -/
def jmul : JsNum → JsNum → JsNum
  | Option.some a, Option.some b => Option.some (a * b)
  | _, _ => Option.none

/-- JavaScript unary negation: `NaN` propagates. -/
def jneg : JsNum → JsNum
  | Option.some a => Option.some (-a)
  | Option.none => Option.none

/-- JavaScript `Map.prototype.set` on an association list: if the key is
present its value is replaced in place, otherwise the pair is appended. -/
def mapSet (m : List (String × ℚ)) (k : String) (v : ℚ) : List (String × ℚ) :=
  if m.any (fun p => p.1 = k) then
    m.map (fun p => if p.1 = k then (k, v) else p)
  else
    m ++ [(k, v)]

/-- The sum of the values of an association list (order irrelevant for `+`). -/
def valuesSum (m : List (String × ℚ)) : ℚ :=
  (m.map Prod.snd).sum

/-- The product of the values of an association list. -/
def valuesProd (m : List (String × ℚ)) : ℚ :=
  (m.map Prod.snd).prod

/-- Modelled from the spec: a damage-bonus table exposed by an actor
(`system.bonuses.damage` on a source, `system.bonuses.incomingDamage` on a
target; the actor data model is not under `src/`): an `all` entry plus
per-damage-type entries, the latter defaulting to 0 when absent (the code
reads `outgoing[context.damageType] ?? 0`). -/
structure DamageBonusTable where
  all : ℚ
  byType : List (String × ℚ)
deriving DecidableEq, Repr

/-- Modelled from the spec: the source entity of a request ("an entity
optionally exposing an outgoing-damage bonus table", spec section 6); the code
guards on `context.sourceActor` and `context.sourceActor.system.bonuses`. -/
structure SourceActor where
  bonuses : Option DamageBonusTable
deriving DecidableEq, Repr

/-- Modelled from the spec: a target actor ("an entity exposing an
affinity-lookup table keyed by damage type, optional bonus tables for
incoming damage, a named flag store", spec section 6).  `affinities` models
`actor.system.affinities` (key presence tested with `in`, then `.current`
read); `bonuses` models the optional `actor.system.bonuses` whose
`incomingDamage` table the collector reads; `scaleIncomingDamageFlag` models
`actor.getFlag(Flags.Scope, Flags.Modifier.ScaleIncomingDamage)`. -/
structure Actor where
  name : String
  affinities : List (String × Affinity)
  bonuses : Option DamageBonusTable
  scaleIncomingDamageFlag : Option ℚ
deriving DecidableEq, Repr

/-- The `baseDamageInfo` descriptor: `{total, type, modifierTotal}` as read by
the `DamageRequest` constructor. -/
structure BaseDamageInfo where
  total : ℚ
  dtype : String
  modifierTotal : ℚ
deriving DecidableEq, Repr

/-- The value passed as `targets` to the `DamageRequest` constructor: an
array of actors, some other truthy (non-array) value, or a falsy value
(`undefined`/`null`).  `Array.isArray` and JS truthiness distinguish the
three. -/
inductive TargetsVal where
  | arr (l : List Actor)
  | truthyNonArray
  | falsy
deriving DecidableEq, Repr

/-- JS truthiness of a `targets` value: any array (even empty) is truthy. -/
def TargetsVal.truthy : TargetsVal → Bool
  | .arr _ => true
  | .truthyNonArray => true
  | .falsy => false

/-- `Array.isArray` on a `targets` value. -/
def TargetsVal.isArray : TargetsVal → Bool
  | .arr _ => true
  | _ => false

/-- The `extraDamageInfo` descriptor consumed by the pipeline: optional
damage-type override, `hrZero` flag, optional additive `damageBonus` and
`extraDamage`, an optional target-list override, and the four ignore flags.
Absent optional fields are `none` (JS `undefined`). -/
structure ExtraDamageInfo where
  damageType : Option String
  hrZero : Bool
  damageBonus : Option ℚ
  extraDamage : Option ℚ
  targets : Option (List Actor)
  ignoreVulnerable : Bool
  ignoreResistance : Bool
  ignoreImmunities : Bool
  ignoreAbsorption : Bool
deriving DecidableEq, Repr

/-- An `extraDamageInfo` with every field absent/false: the `{}` default of
the `DamageRequest` constructor. -/
def emptyExtra : ExtraDamageInfo :=
  ⟨Option.none, false, Option.none, Option.none, Option.none, false, false, false, false⟩

/-- The `ApplyTargetOverrides` record `{affinity?, total?}` carried by a
request.  The code tests both fields by JS truthiness. -/
structure Overrides where
  affinity : Option Affinity
  total : Option ℚ
deriving DecidableEq, Repr

/-- The `DamageRequest` value object.  `sourceActor` models the resolved
source entity; `traits` models the request's JS `Set` of trait strings
(membership only).  The derived fields `damageType` and `amount` are defined
as functions below, matching their computation once at construction (a
request is immutable afterwards). -/
structure DamageRequest where
  sourceName : String
  sourceActor : Option SourceActor
  targets : TargetsVal
  baseDamageInfo : BaseDamageInfo
  extraDamageInfo : ExtraDamageInfo
  traits : List String
  overrides : Overrides
deriving DecidableEq, Repr

/-- The derived `damageType`: `extraDamageInfo.damageType ||
baseDamageInfo.type` (JS `||`, so an empty-string override is falsy and
falls back to the base type). -/
def DamageRequest.damageType (r : DamageRequest) : String :=
  match r.extraDamageInfo.damageType with
  | Option.some s => if s = "" then r.baseDamageInfo.dtype else s
  | Option.none => r.baseDamageInfo.dtype

/-- The derived `amount` from `DamageRequest`'s constructor, line 32:
`extraDamageInfo.hrZero ? extraDamageInfo.damageBonus +
baseDamageInfo.modifierTotal + (extraDamageInfo.extraDamage || 0) :
baseDamageInfo.total + (extraDamageInfo.damageBonus || 0) +
(extraDamageInfo.extraDamage || 0)`.  In the `hrZero` branch `damageBonus`
is read without a default, so an absent `damageBonus` makes the sum `NaN`. -/
def DamageRequest.amount (r : DamageRequest) : JsNum :=
  if r.extraDamageInfo.hrZero then
    match r.extraDamageInfo.damageBonus with
    | Option.some b =>
        Option.some (b + r.baseDamageInfo.modifierTotal + (r.extraDamageInfo.extraDamage.getD 0))
    | Option.none => Option.none
  else
    Option.some (r.baseDamageInfo.total + (r.extraDamageInfo.damageBonus.getD 0)
      + (r.extraDamageInfo.extraDamage.getD 0))

/-- `DamageRequest.allTargets`: `this.extraDamageInfo.targets || this.targets`
(an override list, when present, is an array and hence truthy). -/
def DamageRequest.allTargets (r : DamageRequest) : TargetsVal :=
  match r.extraDamageInfo.targets with
  | Option.some l => TargetsVal.arr l
  | Option.none => r.targets

/-- `DamageRequest.validate`, lines 45-57: falsy `allTargets` fails (returns
`undefined`, falsy), then a non-array `targets` returns `false`, else
`true`. -/
def DamageRequest.validate (r : DamageRequest) : Bool :=
  if ¬ r.allTargets.truthy then false
  else if ¬ r.targets.isArray then false
  else true

/-- The `DamagePipelineContext` for one (request, target-actor) pair: the
owning request (`PipelineContext`, defined in `pipeline.mjs` outside `src/`,
carries the request's fields per the spec's data model: "reference to the
owning request"), the target actor, the `bonuses` and `modifiers` maps, the
resolved affinity tier and message, and the `result`, `Option.none` while
still `undefined`. -/
structure DamagePipelineContext where
  req : DamageRequest
  actor : Actor
  bonuses : List (String × ℚ)
  modifiers : List (String × ℚ)
  affinity : Affinity
  affinityMessage : String
  result : Option JsNum
deriving DecidableEq, Repr

/-- Context construction (`new DamagePipelineContext(request, actor)`): empty
maps, no result yet; `affinity`/`affinityMessage` are only read after
`resolveAffinity` assigns them, so their initial values are irrelevant. -/
def initContext (r : DamageRequest) (a : Actor) : DamagePipelineContext :=
  ⟨r, a, [], [], Affinity.none, "", Option.none⟩

/-- The affinity picked before the ignore checks, lines 100-108: an explicit
override wins (the code tests `context.overrides?.affinity` for truthiness;
with no override-affinity claim at stake we model a present override as
used), else the actor's affinity table looked up by the request's damage
type, else `none`. -/
def lookedUpAffinity (r : DamageRequest) (a : Actor) : Affinity :=
  match r.overrides.affinity with
  | Option.some aff => aff
  | Option.none =>
    match a.affinities.lookup r.damageType with
    | Option.some aff => aff
    | Option.none => Affinity.none

/-- `resolveAffinity`, lines 99-144: starting from the looked-up affinity and
the default message, apply the four sequential ignore blocks.  Note the
vulnerability block sets the "Vulnerable" message before testing
`ignoreVulnerable` and never resets it. -/
def resolveAffinity (ctx : DamagePipelineContext) : DamagePipelineContext :=
  let a0 := lookedUpAffinity ctx.req ctx.actor
  let m0 := "FU.ChatApplyDamageNormal"
  let p1 : Affinity × String :=
    if a0 = Affinity.vulnerability then
      (if ctx.req.extraDamageInfo.ignoreVulnerable then Affinity.none else Affinity.vulnerability,
        "FU.ChatApplyDamageVulnerable")
    else (a0, m0)
  let p2 : Affinity × String :=
    if p1.1 = Affinity.resistance then
      if ctx.req.extraDamageInfo.ignoreResistance || ctx.req.traits.contains "ignore-resistance" then
        (Affinity.none, "FU.ChatApplyDamageResistantIgnored")
      else (Affinity.resistance, "FU.ChatApplyDamageResistant")
    else p1
  let p3 : Affinity × String :=
    if p2.1 = Affinity.immunity then
      if ctx.req.extraDamageInfo.ignoreImmunities || ctx.req.traits.contains "ignore-immunity" then
        (Affinity.none, "FU.ChatApplyDamageImmuneIgnored")
      else (Affinity.immunity, "FU.ChatApplyDamageImmune")
    else p2
  let p4 : Affinity × String :=
    if p3.1 = Affinity.absorption then
      if ctx.req.extraDamageInfo.ignoreAbsorption then
        (Affinity.none, p3.2)
      else (Affinity.absorption, "FU.ChatApplyDamageAbsorb")
    else p3
  { ctx with affinity := p4.1, affinityMessage := p4.2 }

/-- Whether `overrideResult`'s condition `context.overrides?.total` is truthy:
a present, nonzero total (JS `0` is falsy). -/
def overridePathTaken (r : DamageRequest) : Bool :=
  match r.overrides.total with
  | Option.some t => t ≠ 0
  | Option.none => false

/-- `overrideResult`, lines 150-156: when the override total is truthy, set
the result to it and report `true`; otherwise leave the context alone and
report `false`. -/
def overrideResult (ctx : DamagePipelineContext) : DamagePipelineContext × Bool :=
  if overridePathTaken ctx.req then
    match ctx.req.overrides.total with
    | Option.some t => ({ ctx with result := Option.some (Option.some t) }, true)
    | Option.none => (ctx, false)
  else (ctx, false)

/-- `collectIncrements`, lines 162-178: record the source's outgoing-damage
bonuses (when a source actor with a bonus table exists) and the target's
incoming-damage bonuses (when the target has a bonus table); type-specific
entries default to 0. -/
def collectIncrements (ctx : DamagePipelineContext) : DamagePipelineContext :=
  let b1 :=
    match ctx.req.sourceActor with
    | Option.some src =>
      match src.bonuses with
      | Option.some outgoing =>
        mapSet (mapSet ctx.bonuses "outgoingDamage.all" outgoing.all)
          "outgoingDamage.damageType" (outgoing.byType.lookup ctx.req.damageType |>.getD 0)
      | Option.none => ctx.bonuses
    | Option.none => ctx.bonuses
  let b2 :=
    match ctx.actor.bonuses with
    | Option.some incoming =>
      mapSet (mapSet b1 "incomingDamage.all" incoming.all)
        "incomingDamage.damageType" (incoming.byType.lookup ctx.req.damageType |>.getD 0)
    | Option.none => b1
  { ctx with bonuses := b2 }

/-- `collectMultipliers`, lines 185-198: record the target's
scale-incoming-damage flag when truthy, then always record the `affinity`
multiplier for the resolved tier (the collection hook fires afterwards and is
modelled as a no-op). -/
def collectMultipliers (ctx : DamagePipelineContext) : DamagePipelineContext :=
  let m1 :=
    match ctx.actor.scaleIncomingDamageFlag with
    | Option.some v => if v ≠ 0 then mapSet ctx.modifiers "scaleIncomingDamage" v else ctx.modifiers
    | Option.none => ctx.modifiers
  { ctx with modifiers := mapSet m1 "affinity" (affinityDamageModifier ctx.affinity) }

/-- `calculateResult`, lines 205-220: start from the request's amount, fold
the bonuses with `+`, then the modifiers with `*`, and store the result (the
calculation hook fires afterwards and is modelled as a no-op). -/
def calculateResult (ctx : DamagePipelineContext) : DamagePipelineContext :=
  let afterBonuses := ctx.bonuses.foldl (fun acc p => jadd acc (Option.some p.2)) ctx.req.amount
  let afterModifiers := ctx.modifiers.foldl (fun acc p => jmul acc (Option.some p.2)) afterBonuses
  { ctx with result := Option.some afterModifiers }

/-- The per-target pipeline of `process`, lines 238-244: build a context,
resolve affinity, then either take the override path or run collection and
calculation. -/
def runPipeline (r : DamageRequest) (a : Actor) : DamagePipelineContext :=
  let ctx := resolveAffinity (initContext r a)
  let step := overrideResult ctx
  if step.2 then step.1
  else calculateResult (collectMultipliers (collectIncrements step.1))

/-- The per-target outcome recorded by `process`: the pool mutation
(`modifyTokenAttribute('resources.hp', -context.result, true)`) and the data
of the emitted chat record. -/
structure TargetOutcome where
  actor : Actor
  result : JsNum
  pool : String
  poolDelta : JsNum
  affinity : Affinity
  affinityMessage : String
  bonuses : List (String × ℚ)
  modifiers : List (String × ℚ)
deriving DecidableEq, Repr

/-- One loop iteration of `process` for one target: run the pipeline; if the
result is still `undefined` the code throws (`Option.none` here), otherwise
the pool delta is the negated result. -/
def processTarget (r : DamageRequest) (a : Actor) : Option TargetOutcome :=
  let ctx := runPipeline r a
  match ctx.result with
  | Option.none => Option.none
  | Option.some res =>
    Option.some ⟨a, res, "resources.hp", jneg res, ctx.affinity, ctx.affinityMessage,
      ctx.bonuses, ctx.modifiers⟩

/-- Sequential traversal of the target list, aborting at the first target
whose pipeline run throws (mirrors the `for` loop with its `throw`). -/
def traverseTargets (r : DamageRequest) : List Actor → Option (List TargetOutcome)
  | [] => Option.some []
  | a :: rest =>
    match processTarget r a with
    | Option.none => Option.none
    | Option.some o =>
      match traverseTargets r rest with
      | Option.none => Option.none
      | Option.some os => Option.some (o :: os)

/-- `process`, lines 226-276: reject invalid requests before any side effect,
then iterate `request.targets` (not `allTargets`), throwing on a missing
result. -/
def process (r : DamageRequest) : Except String (List TargetOutcome) :=
  if ¬ r.validate then Except.error "Request was not valid"
  else
    match r.targets with
    | TargetsVal.arr l =>
      match traverseTargets r l with
      | Option.some os => Except.ok os
      | Option.none => Except.error "Failed to generate result during pipeline"
    | _ => Except.error "Request was not valid"

/-- A copy of a request in which only the extra-damage descriptor's
target-list override is changed. -/
def setExtraTargets (r : DamageRequest) (t : Option (List Actor)) : DamageRequest :=
  { r with extraDamageInfo := { r.extraDamageInfo with targets := t } }

/-- A target with no affinities, no bonus tables and no flags. -/
def neutralActor : Actor := ⟨"neutral", [], Option.none, Option.none⟩

/-- A second plain target, used to vary target lists. -/
def otherActor : Actor := ⟨"other", [], Option.none, Option.none⟩

/-- A plain request: base total 5 of type fire against the neutral target,
default extra info, no traits, no overrides. -/
def baseReq : DamageRequest :=
  ⟨"attacker", Option.none, TargetsVal.arr [neutralActor], ⟨5, "fire", 0⟩, emptyExtra, [],
    ⟨Option.none, Option.none⟩⟩

/-- A target that absorbs fire damage. -/
def absActor : Actor := ⟨"absorber", [("fire", Affinity.absorption)], Option.none, Option.none⟩

/-- Scenario C of the spec: base amount 8 of fire against the absorbing
target, no ignore flags. -/
def scenCReq : DamageRequest :=
  ⟨"attacker", Option.none, TargetsVal.arr [absActor], ⟨8, "fire", 0⟩, emptyExtra, [],
    ⟨Option.none, Option.none⟩⟩

/-- The outcome `process` produces for scenario C. -/
def scenCOutcome : TargetOutcome :=
  ⟨absActor, Option.some (-8), "resources.hp", Option.some 8, Affinity.absorption,
    "FU.ChatApplyDamageAbsorb", [], [("affinity", -1)]⟩

/-- The plain request with an explicit override total of 0. -/
def zeroOvReq : DamageRequest :=
  ⟨"attacker", Option.none, TargetsVal.arr [neutralActor], ⟨5, "fire", 0⟩, emptyExtra, [],
    ⟨Option.none, Option.some 0⟩⟩

/-- Scenario D of the spec: the plain request with an explicit override
total of 99. -/
def ovReq99 : DamageRequest :=
  ⟨"attacker", Option.none, TargetsVal.arr [neutralActor], ⟨5, "fire", 0⟩, emptyExtra, [],
    ⟨Option.none, Option.some 99⟩⟩

/-- A request with `hrZero` set, `extraDamage` 2, base modifier total 3, and
no `damageBonus`. -/
def hrZeroReq : DamageRequest :=
  ⟨"attacker", Option.none, TargetsVal.arr [neutralActor], ⟨10, "fire", 3⟩,
    { emptyExtra with hrZero := true, extraDamage := Option.some 2 }, [],
    ⟨Option.none, Option.none⟩⟩

/-- A request with `hrZero` set and a present `damageBonus` of 4 over base
modifier total 3. -/
def hrBonusReq : DamageRequest :=
  ⟨"attacker", Option.none, TargetsVal.arr [neutralActor], ⟨10, "fire", 3⟩,
    { emptyExtra with hrZero := true, damageBonus := Option.some 4 }, [],
    ⟨Option.none, Option.none⟩⟩

/-- A target vulnerable to fire. -/
def vulActor : Actor := ⟨"victim", [("fire", Affinity.vulnerability)], Option.none, Option.none⟩

/-- A fire request against the vulnerable target with the ignore-vulnerable
flag set. -/
def vulReq : DamageRequest :=
  ⟨"attacker", Option.none, TargetsVal.arr [vulActor], ⟨5, "fire", 0⟩,
    { emptyExtra with ignoreVulnerable := true }, [], ⟨Option.none, Option.none⟩⟩

/-- A request whose `targets` argument is not an array (falsy). -/
def badReq : DamageRequest :=
  ⟨"attacker", Option.none, TargetsVal.falsy, ⟨5, "fire", 0⟩, emptyExtra, [],
    ⟨Option.none, Option.none⟩⟩

/-- The tier `resolveAffinity` yields for request `r` against target `a` when
the looked-up affinity is pinned to `t`: no affinity override, and the
target's affinity table maps the request's damage type to `t`. -/
def resolvedWithLookup (r : DamageRequest) (a : Actor) (t : Affinity) : Affinity :=
  (resolveAffinity (initContext
    { r with overrides := ⟨Option.none, r.overrides.total⟩ }
    { a with affinities := [(DamageRequest.damageType r, t)] })).affinity

/-- Adding two present values under one JS addition step. -/
lemma jadd_jadd (a : JsNum) (x y : ℚ) :
    jadd (jadd a (Option.some x)) (Option.some y) = jadd a (Option.some (x + y)) := by
  cases a <;> simp [jadd, add_assoc]

/-- Multiplying by two present values under one JS multiplication step. -/
lemma jmul_jmul (a : JsNum) (x y : ℚ) :
    jmul (jmul a (Option.some x)) (Option.some y) = jmul a (Option.some (x * y)) := by
  cases a <;> simp [jmul, mul_assoc]

/-- Folding the bonus map with JS addition adds the sum of its values. -/
lemma foldl_jadd (l : List (String × ℚ)) (a : JsNum) :
    l.foldl (fun acc p => jadd acc (Option.some p.2)) a = jadd a (Option.some (valuesSum l)) := by
  induction l generalizing a with
  | nil => cases a <;> simp [jadd, valuesSum]
  | cons p l ih =>
    simp only [List.foldl_cons, ih, jadd_jadd, valuesSum, List.map_cons, List.sum_cons]

/-- Folding the modifier map with JS multiplication multiplies by the product
of its values. -/
lemma foldl_jmul (l : List (String × ℚ)) (a : JsNum) :
    l.foldl (fun acc p => jmul acc (Option.some p.2)) a = jmul a (Option.some (valuesProd l)) := by
  induction l generalizing a with
  | nil => cases a <;> simp [jmul, valuesProd]
  | cons p l ih =>
    simp only [List.foldl_cons, ih, jmul_jmul, valuesProd, List.map_cons, List.prod_cons]

/-- The result `calculateResult` stores is the bonus-adjusted amount times
the product of the modifiers. -/
lemma calculateResult_result (ctx : DamagePipelineContext) :
    (calculateResult ctx).result =
      Option.some (jmul (jadd ctx.req.amount (Option.some (valuesSum ctx.bonuses)))
        (Option.some (valuesProd ctx.modifiers))) := by
  simp [calculateResult, foldl_jadd, foldl_jmul]

/-- Looking up a key appended to a map that does not contain it. -/
lemma lookup_append_absent (m : List (String × ℚ)) (k : String) (v : ℚ)
    (h : m.any (fun p => p.1 = k) = false) :
    (m ++ [(k, v)]).lookup k = Option.some v := by
  induction m with
  | nil => simp [List.lookup]
  | cons p m ih =>
    simp only [List.any_cons, Bool.or_eq_false_iff, decide_eq_false_iff_not] at h
    have hb : (k == p.1) = false := beq_eq_false_iff_ne.mpr (Ne.symm h.1)
    simp [List.lookup, hb, ih h.2]

/-- Looking up a key replaced in place in a map that contains it. -/
lemma lookup_map_replace (m : List (String × ℚ)) (k : String) (v : ℚ)
    (h : m.any (fun p => p.1 = k) = true) :
    (m.map (fun p => if p.1 = k then (k, v) else p)).lookup k = Option.some v := by
  induction m with
  | nil => simp at h
  | cons p m ih =>
    simp only [List.map_cons]
    by_cases hp : p.1 = k
    · rw [if_pos hp]
      simp [List.lookup]
    · rw [if_neg hp]
      simp only [List.any_cons, Bool.or_eq_true_iff, decide_eq_true_eq] at h
      rcases h with h | h
      · exact absurd h hp
      · have hb : (k == p.1) = false := beq_eq_false_iff_ne.mpr (Ne.symm hp)
        simp [List.lookup, hb, ih h]

/-- After `mapSet`, the key maps to the stored value. -/
lemma lookup_mapSet (m : List (String × ℚ)) (k : String) (v : ℚ) :
    (mapSet m k v).lookup k = Option.some v := by
  unfold mapSet
  by_cases h : m.any (fun p => p.1 = k) = true
  · simp [h, lookup_map_replace m k v h]
  · simp only [Bool.not_eq_true] at h
    simp [h, lookup_append_absent m k v h]

/-- Resolving affinity leaves the owning request untouched. -/
lemma resolveAffinity_req (c : DamagePipelineContext) : (resolveAffinity c).req = c.req := rfl

/-- A fresh context references the request it was created for. -/
lemma initContext_req (r : DamageRequest) (a : Actor) : (initContext r a).req = r := rfl

/-- Validation succeeds exactly when `allTargets` is truthy and `targets` is
an array. -/
lemma validate_eq (r : DamageRequest) :
    r.validate = (r.allTargets.truthy && r.targets.isArray) := by
  unfold DamageRequest.validate
  cases ht : r.allTargets.truthy <;> cases ha : r.targets.isArray <;> simp [ht, ha]

/-- On a valid request with an array target list, `process` reduces to the
traversal of that list. -/
lemma process_arr (r : DamageRequest) (l : List Actor) (htg : r.targets = TargetsVal.arr l)
    (hv : r.validate = true) :
    process r = match traverseTargets r l with
      | Option.some os => Except.ok os
      | Option.none => Except.error "Failed to generate result during pipeline" := by
  unfold process
  rw [if_neg (by simp [hv]), htg]

/-- Every outcome of a successful traversal targets the hit-point pool with
the negated result as delta. -/
lemma traverseTargets_outcomes (r : DamageRequest) (l : List Actor) (outs : List TargetOutcome)
    (h : traverseTargets r l = Option.some outs) :
    ∀ o ∈ outs, o.pool = "resources.hp" ∧ o.poolDelta = jneg o.result := by
  induction l generalizing outs with
  | nil =>
    simp [traverseTargets] at h
    subst h
    intro o ho
    simp at ho
  | cons a l ih =>
    simp only [traverseTargets] at h
    cases hpt : processTarget r a with
    | none => rw [hpt] at h; simp at h
    | some o1 =>
      rw [hpt] at h
      cases htr : traverseTargets r l with
      | none => rw [htr] at h; simp at h
      | some os =>
        rw [htr] at h
        simp only [Option.some.injEq] at h
        subst h
        intro o ho
        rcases List.mem_cons.mp ho with rfl | ho2
        · simp only [processTarget] at hpt
          cases hr : (runPipeline r a).result with
          | none => rw [hr] at hpt; simp at hpt
          | some res =>
            rw [hr] at hpt
            simp only [Option.some.injEq] at hpt
            rw [← hpt]
            exact ⟨rfl, rfl⟩
        · exact ih os htr o ho2

/-- A successful traversal emits outcomes for exactly the traversed actors,
in order. -/
lemma traverseTargets_actors (r : DamageRequest) (l : List Actor) (outs : List TargetOutcome)
    (h : traverseTargets r l = Option.some outs) :
    outs.map TargetOutcome.actor = l := by
  induction l generalizing outs with
  | nil =>
    simp [traverseTargets] at h
    subst h
    rfl
  | cons a l ih =>
    simp only [traverseTargets] at h
    cases hpt : processTarget r a with
    | none => rw [hpt] at h; simp at h
    | some o1 =>
      rw [hpt] at h
      cases htr : traverseTargets r l with
      | none => rw [htr] at h; simp at h
      | some os =>
        rw [htr] at h
        simp only [Option.some.injEq] at h
        subst h
        have ha : o1.actor = a := by
          simp only [processTarget] at hpt
          cases hr : (runPipeline r a).result with
          | none => rw [hr] at hpt; simp at hpt
          | some res =>
            rw [hr] at hpt
            simp only [Option.some.injEq] at hpt
            rw [← hpt]
        simp [ha, ih os htr]

/-- Changing the extra-damage target-list override does not change the
stored `targets`. -/
lemma setExtraTargets_targets (r : DamageRequest) (t : Option (List Actor)) :
    (setExtraTargets r t).targets = r.targets := rfl

/-- The per-target pipeline run is unchanged by the extra-damage target-list
override, except for the request reference the context carries. -/
lemma runPipeline_setExtraTargets (r : DamageRequest) (t : Option (List Actor)) (a : Actor) :
    runPipeline (setExtraTargets r t) a =
      { runPipeline r a with req := setExtraTargets r t } := by
  unfold runPipeline
  by_cases hov : overridePathTaken r = true
  · have hovR : overridePathTaken (setExtraTargets r t) = true := hov
    cases htot : r.overrides.total with
    | none => simp [overridePathTaken, htot] at hov
    | some tv =>
      have htotR : (setExtraTargets r t).overrides.total = Option.some tv := htot
      simp only [overrideResult, resolveAffinity_req, initContext_req, hov, hovR, htot, htotR,
        if_true]
      rfl
  · have hov2 : overridePathTaken r = false := by simpa using hov
    have hovR : overridePathTaken (setExtraTargets r t) = false := hov2
    simp only [overrideResult, resolveAffinity_req, initContext_req, hov2, hovR,
      Bool.false_eq_true, if_false]
    rfl

/-- The per-target outcome is unchanged by the extra-damage target-list
override. -/
lemma processTarget_setExtraTargets (r : DamageRequest) (t : Option (List Actor)) (a : Actor) :
    processTarget (setExtraTargets r t) a = processTarget r a := by
  unfold processTarget
  rw [runPipeline_setExtraTargets]

/-- The whole traversal is unchanged by the extra-damage target-list
override. -/
lemma traverseTargets_setExtraTargets (r : DamageRequest) (t : Option (List Actor))
    (l : List Actor) : traverseTargets (setExtraTargets r t) l = traverseTargets r l := by
  induction l with
  | nil => rfl
  | cons a l ih =>
    simp only [traverseTargets, processTarget_setExtraTargets, ih]

/-- Claim C1: for every target context that does not take the override path,
the final result equals (amount + sum of all collected bonuses) multiplied by
the product of all collected modifiers, with all additions applied before any
multiplication, and the modifiers map always contains the affinity multiplier
for the resolved tier as one factor. -/
theorem result_formula_no_override (r : DamageRequest) (a : Actor)
    (h : overridePathTaken r = false) :
    (runPipeline r a).result =
      Option.some (jmul (jadd r.amount (Option.some (valuesSum (runPipeline r a).bonuses)))
        (Option.some (valuesProd (runPipeline r a).modifiers))) ∧
    (runPipeline r a).modifiers.lookup "affinity" =
      Option.some (affinityDamageModifier (runPipeline r a).affinity) ∧
    (runPipeline r a).affinity = (resolveAffinity (initContext r a)).affinity := by
  have hstep : overrideResult (resolveAffinity (initContext r a)) =
      (resolveAffinity (initContext r a), false) := by
    simp [overrideResult, resolveAffinity_req, initContext_req, h]
  have hrp : runPipeline r a =
      calculateResult (collectMultipliers (collectIncrements (resolveAffinity (initContext r a)))) := by
    simp [runPipeline, hstep]
  rw [hrp]
  refine ⟨?_, ?_, rfl⟩
  · rw [calculateResult_result]
    rfl
  · exact lookup_mapSet _ "affinity" _

/-- Witness for C1: the plain request takes the normal path and yields the
formula value, concretely 5. -/
theorem result_formula_no_override_witness :
    overridePathTaken baseReq = false ∧
    (runPipeline baseReq neutralActor).result =
      Option.some (jmul (jadd baseReq.amount
          (Option.some (valuesSum (runPipeline baseReq neutralActor).bonuses)))
        (Option.some (valuesProd (runPipeline baseReq neutralActor).modifiers))) ∧
    (runPipeline baseReq neutralActor).modifiers.lookup "affinity" =
      Option.some (affinityDamageModifier (runPipeline baseReq neutralActor).affinity) ∧
    (runPipeline baseReq neutralActor).result = Option.some (Option.some 5) := by
  have h := result_formula_no_override baseReq neutralActor rfl
  refine ⟨rfl, h.1, h.2.1, ?_⟩
  simp [runPipeline, resolveAffinity, initContext, overrideResult, overridePathTaken,
    collectIncrements, collectMultipliers, calculateResult, mapSet, jadd, jmul,
    lookedUpAffinity, DamageRequest.amount, DamageRequest.damageType, baseReq, neutralActor,
    emptyExtra, affinityDamageModifier]

/-- Claim C2: for every processed target, the resource-pool delta applied to
the target's hit-point pool equals the negation of the context's result. -/
theorem pool_delta_negates_result (r : DamageRequest) (outs : List TargetOutcome)
    (hp : process r = Except.ok outs) :
    ∀ o ∈ outs, o.pool = "resources.hp" ∧ o.poolDelta = jneg o.result := by
  by_cases hv : r.validate = true
  · have harr : r.targets.isArray = true := by
      rw [validate_eq] at hv
      exact (Bool.and_eq_true_iff.mp hv).2
    cases htg : r.targets with
    | arr l =>
      rw [process_arr r l htg hv] at hp
      cases htr : traverseTargets r l with
      | none => rw [htr] at hp; simp at hp
      | some os =>
        rw [htr] at hp
        simp only [Except.ok.injEq] at hp
        subst hp
        exact traverseTargets_outcomes r l os htr
    | truthyNonArray => rw [htg] at harr; simp [TargetsVal.isArray] at harr
    | falsy => rw [htg] at harr; simp [TargetsVal.isArray] at harr
  · unfold process at hp
    rw [if_pos (by simp [Bool.not_eq_true] at hv ⊢; exact hv)] at hp
    simp at hp

/-- Witness for C2, scenario C of the spec: base amount 8 against unignored
absorption gives result −8 and pool delta +8 (healing). -/
theorem pool_delta_negates_result_witness :
    process scenCReq = Except.ok [scenCOutcome] ∧
    (scenCOutcome.pool = "resources.hp" ∧ scenCOutcome.poolDelta = jneg scenCOutcome.result) ∧
    scenCOutcome.result = Option.some (-8) ∧
    scenCOutcome.poolDelta = Option.some 8 := by
  have hp : process scenCReq = Except.ok [scenCOutcome] := by
    simp [process, traverseTargets, processTarget, runPipeline, resolveAffinity, initContext,
      overrideResult, overridePathTaken, collectIncrements, collectMultipliers, calculateResult,
      mapSet, jadd, jmul, jneg, lookedUpAffinity, DamageRequest.amount, DamageRequest.damageType,
      DamageRequest.validate, DamageRequest.allTargets, TargetsVal.truthy, TargetsVal.isArray,
      scenCReq, scenCOutcome, absActor, emptyExtra, affinityDamageModifier, List.lookup]
  exact ⟨hp, pool_delta_negates_result scenCReq [scenCOutcome] hp scenCOutcome (by simp),
    rfl, rfl⟩

/-- Counterexample to claim C3 as stated: with an explicit override total of
0 (falsy in JS), the override path is not taken — the modifiers map is
populated and the result is the computed 5, not the override value 0. -/
theorem override_total_zero_counterexample :
    zeroOvReq.overrides.total = Option.some 0 ∧
    (runPipeline zeroOvReq neutralActor).modifiers = [("affinity", 1)] ∧
    (runPipeline zeroOvReq neutralActor).result = Option.some (Option.some 5) ∧
    ¬((runPipeline zeroOvReq neutralActor).bonuses = [] ∧
      (runPipeline zeroOvReq neutralActor).modifiers = [] ∧
      (runPipeline zeroOvReq neutralActor).result = Option.some (Option.some 0)) := by
  have hm : (runPipeline zeroOvReq neutralActor).modifiers = [("affinity", 1)] := by
    simp [runPipeline, resolveAffinity, initContext, overrideResult, overridePathTaken,
      collectIncrements, collectMultipliers, calculateResult, mapSet, jadd, jmul,
      lookedUpAffinity, DamageRequest.amount, DamageRequest.damageType, zeroOvReq, neutralActor,
      emptyExtra, affinityDamageModifier]
  have hr : (runPipeline zeroOvReq neutralActor).result = Option.some (Option.some 5) := by
    simp [runPipeline, resolveAffinity, initContext, overrideResult, overridePathTaken,
      collectIncrements, collectMultipliers, calculateResult, mapSet, jadd, jmul,
      lookedUpAffinity, DamageRequest.amount, DamageRequest.damageType, zeroOvReq, neutralActor,
      emptyExtra, affinityDamageModifier]
  refine ⟨rfl, hm, hr, fun hcl => ?_⟩
  rw [hm] at hcl
  exact absurd hcl.2.1 (by simp)

/-- Claim C3 as amended: for every request whose overrides carry a truthy
(present and nonzero) explicit total, each target context's result is set to
exactly that override value and the collection/calculation stages never run,
leaving the bonus and modifier maps empty; an override total of 0 is falsy
and takes the normal path instead. -/
theorem override_total_truthy (r : DamageRequest) (a : Actor) (t : ℚ)
    (ht : r.overrides.total = Option.some t) (hnz : t ≠ 0) :
    (runPipeline r a).result = Option.some (Option.some t) ∧
    (runPipeline r a).bonuses = [] ∧ (runPipeline r a).modifiers = [] := by
  have hov : overridePathTaken r = true := by simp [overridePathTaken, ht, hnz]
  simp [runPipeline, overrideResult, resolveAffinity_req, initContext_req, hov, ht,
    resolveAffinity, initContext]

/-- Witness for the amended C3, scenario D of the spec: override total 99
yields result exactly 99 with empty maps. -/
theorem override_total_truthy_witness :
    ovReq99.overrides.total = Option.some 99 ∧
    (runPipeline ovReq99 neutralActor).result = Option.some (Option.some 99) ∧
    (runPipeline ovReq99 neutralActor).bonuses = [] ∧
    (runPipeline ovReq99 neutralActor).modifiers = [] :=
  ⟨rfl, override_total_truthy ovReq99 neutralActor 99 rfl (by norm_num)⟩

/-- Claim C4: the affinity-tier-to-multiplier mapping is fixed: vulnerability
2, none 1, resistance 0.5, immunity 0, absorption −1. -/
theorem affinity_multiplier_table :
    affinityDamageModifier Affinity.vulnerability = 2 ∧
    affinityDamageModifier Affinity.none = 1 ∧
    affinityDamageModifier Affinity.resistance = 1 / 2 ∧
    affinityDamageModifier Affinity.immunity = 0 ∧
    affinityDamageModifier Affinity.absorption = -1 :=
  ⟨rfl, rfl, rfl, rfl, rfl⟩

/-- Claim C5: the ignore flags and traits only ever move the resolved tier
to none — the resolved tier is always the looked-up tier or none, and with
the matching flag or trait set, vulnerability, resistance, immunity, and
absorption each resolve to none. -/
theorem ignore_flags_only_downgrade (r : DamageRequest) (a : Actor) :
    ((resolveAffinity (initContext r a)).affinity = lookedUpAffinity r a ∨
      (resolveAffinity (initContext r a)).affinity = Affinity.none) ∧
    resolvedWithLookup
      { r with extraDamageInfo := { r.extraDamageInfo with ignoreVulnerable := true } } a
      Affinity.vulnerability = Affinity.none ∧
    resolvedWithLookup
      { r with extraDamageInfo := { r.extraDamageInfo with ignoreResistance := true } } a
      Affinity.resistance = Affinity.none ∧
    resolvedWithLookup { r with traits := "ignore-resistance" :: r.traits } a
      Affinity.resistance = Affinity.none ∧
    resolvedWithLookup
      { r with extraDamageInfo := { r.extraDamageInfo with ignoreImmunities := true } } a
      Affinity.immunity = Affinity.none ∧
    resolvedWithLookup { r with traits := "ignore-immunity" :: r.traits } a
      Affinity.immunity = Affinity.none ∧
    resolvedWithLookup
      { r with extraDamageInfo := { r.extraDamageInfo with ignoreAbsorption := true } } a
      Affinity.absorption = Affinity.none := by
  refine ⟨?_, ?_, ?_, ?_, ?_, ?_, ?_⟩
  · cases h : lookedUpAffinity r a <;>
      simp [resolveAffinity, initContext_req, initContext, h] <;>
      split_ifs <;> simp_all
  all_goals
    simp [resolvedWithLookup, resolveAffinity, initContext, lookedUpAffinity,
      DamageRequest.damageType]

/-- Claim C6: validation fails exactly when allTargets is absent (falsy) or
targets is not an array, and a failed validation makes process reject before
any per-target side effect. -/
theorem validate_failure_characterization (r : DamageRequest) :
    (r.validate = false ↔ (r.allTargets.truthy = false ∨ r.targets.isArray = false)) ∧
    (r.validate = false → process r = Except.error "Request was not valid") := by
  constructor
  · rw [validate_eq]
    cases ht : r.allTargets.truthy <;> cases ha : r.targets.isArray <;> simp [ht, ha]
  · intro h
    unfold process
    rw [if_pos (by simp [h])]

/-- Witness for C6: a request with a falsy target list fails validation and
is rejected with no outcomes. -/
theorem validate_failure_witness :
    badReq.allTargets.truthy = false ∧
    badReq.validate = false ∧
    process badReq = Except.error "Request was not valid" :=
  ⟨rfl, rfl, (validate_failure_characterization badReq).2 rfl⟩

/-- Counterexample to claim C7 as stated: with hrZero set and damageBonus
absent, the amount is NaN (modelled none), not the claimed defaulted sum
0 + modifierTotal + extraDamage. -/
theorem hr_zero_missing_bonus_counterexample :
    hrZeroReq.extraDamageInfo.hrZero = true ∧
    hrZeroReq.extraDamageInfo.damageBonus = Option.none ∧
    hrZeroReq.amount = Option.none ∧
    hrZeroReq.amount ≠ Option.some (0 + hrZeroReq.baseDamageInfo.modifierTotal + 2) := by
  have ha : hrZeroReq.amount = Option.none := by
    simp [DamageRequest.amount, hrZeroReq, emptyExtra]
  exact ⟨rfl, rfl, ha, by rw [ha]; simp⟩

/-- Claim C7 as amended: with hrZero set, amount = damageBonus +
modifierTotal + extraDamage where only an absent extraDamage defaults to 0
and an absent damageBonus yields an undefined (NaN) amount; without hrZero,
amount = base total + damageBonus + extraDamage with both optional fields
defaulting to 0. -/
theorem amount_formula (r : DamageRequest) :
    (r.extraDamageInfo.hrZero = true →
      (∀ db, r.extraDamageInfo.damageBonus = Option.some db →
        r.amount = Option.some (db + r.baseDamageInfo.modifierTotal +
          r.extraDamageInfo.extraDamage.getD 0)) ∧
      (r.extraDamageInfo.damageBonus = Option.none → r.amount = Option.none)) ∧
    (r.extraDamageInfo.hrZero = false →
      r.amount = Option.some (r.baseDamageInfo.total + r.extraDamageInfo.damageBonus.getD 0 +
        r.extraDamageInfo.extraDamage.getD 0)) := by
  constructor
  · intro hz
    constructor
    · intro db hdb
      simp [DamageRequest.amount, hz, hdb]
    · intro hdb
      simp [DamageRequest.amount, hz, hdb]
  · intro hz
    simp [DamageRequest.amount, hz]

/-- Witness for the amended C7: hrZero with damageBonus 4 over modifier
total 3 gives amount 7; the plain request gives amount 5. -/
theorem amount_formula_witness :
    hrBonusReq.amount = Option.some (4 + 3 + 0) ∧
    baseReq.amount = Option.some (5 + 0 + 0) :=
  ⟨((amount_formula hrBonusReq).1 rfl).1 4 rfl, (amount_formula baseReq).2 rfl⟩

/-- Counterexample to claim C8 as stated: with looked-up vulnerability and
the ignore-vulnerable flag set, the tier is downgraded to none but the
stored message is the vulnerable message, not the normal-application
message. -/
theorem vulnerable_ignored_counterexample :
    lookedUpAffinity vulReq vulActor = Affinity.vulnerability ∧
    vulReq.extraDamageInfo.ignoreVulnerable = true ∧
    (resolveAffinity (initContext vulReq vulActor)).affinity = Affinity.none ∧
    (resolveAffinity (initContext vulReq vulActor)).affinityMessage =
      "FU.ChatApplyDamageVulnerable" ∧
    "FU.ChatApplyDamageVulnerable" ≠ "FU.ChatApplyDamageNormal" := by
  have hl : lookedUpAffinity vulReq vulActor = Affinity.vulnerability := by
    simp [lookedUpAffinity, vulReq, vulActor, DamageRequest.damageType, emptyExtra, List.lookup]
  refine ⟨hl, rfl, ?_, ?_, by simp⟩ <;>
    simp [resolveAffinity, initContext, lookedUpAffinity, vulReq, vulActor,
      DamageRequest.damageType, emptyExtra, List.lookup]

/-- Claim C8 as amended: for every context whose looked-up affinity is
vulnerability and whose request has the ignore-vulnerable flag set, the
resolved tier is none but the stored affinity message is the vulnerable
message (assigned before the ignore check and never reset). -/
theorem vulnerable_ignored_keeps_message (r : DamageRequest) (a : Actor)
    (hl : lookedUpAffinity r a = Affinity.vulnerability)
    (hi : r.extraDamageInfo.ignoreVulnerable = true) :
    (resolveAffinity (initContext r a)).affinity = Affinity.none ∧
    (resolveAffinity (initContext r a)).affinityMessage = "FU.ChatApplyDamageVulnerable" := by
  constructor <;> simp [resolveAffinity, initContext_req, initContext, hl, hi]

/-- Witness for the amended C8 at the concrete vulnerable target. -/
theorem vulnerable_ignored_keeps_message_witness :
    (resolveAffinity (initContext vulReq vulActor)).affinity = Affinity.none ∧
    (resolveAffinity (initContext vulReq vulActor)).affinityMessage =
      "FU.ChatApplyDamageVulnerable" :=
  vulnerable_ignored_keeps_message vulReq vulActor
    (by simp [lookedUpAffinity, vulReq, vulActor, DamageRequest.damageType, emptyExtra,
      List.lookup]) rfl

/-- Claim C9: the extra-damage target-list override changes what allTargets
returns (hence what validation checks) but never changes which targets are
processed or reported on — process iterates request.targets only. -/
theorem extra_targets_override_no_frame_effect (r : DamageRequest)
    (t1 t2 : Option (List Actor))
    (h1 : (setExtraTargets r t1).validate = true)
    (h2 : (setExtraTargets r t2).validate = true) :
    process (setExtraTargets r t1) = process (setExtraTargets r t2) ∧
    (∀ l, (setExtraTargets r (Option.some l)).allTargets = TargetsVal.arr l) ∧
    (∀ l outs, r.targets = TargetsVal.arr l →
      process (setExtraTargets r t1) = Except.ok outs →
      outs.map TargetOutcome.actor = l) := by
  have harr : r.targets.isArray = true := by
    rw [validate_eq] at h1
    exact (Bool.and_eq_true_iff.mp h1).2
  obtain ⟨l, htg⟩ : ∃ l, r.targets = TargetsVal.arr l := by
    cases htg : r.targets with
    | arr l => exact ⟨l, rfl⟩
    | truthyNonArray => rw [htg] at harr; simp [TargetsVal.isArray] at harr
    | falsy => rw [htg] at harr; simp [TargetsVal.isArray] at harr
  have htg1 : (setExtraTargets r t1).targets = TargetsVal.arr l := by
    rw [setExtraTargets_targets, htg]
  have htg2 : (setExtraTargets r t2).targets = TargetsVal.arr l := by
    rw [setExtraTargets_targets, htg]
  have hp1 : process (setExtraTargets r t1) = match traverseTargets r l with
      | Option.some os => Except.ok os
      | Option.none => Except.error "Failed to generate result during pipeline" := by
    rw [process_arr (setExtraTargets r t1) l htg1 h1, traverseTargets_setExtraTargets]
  have hp2 : process (setExtraTargets r t2) = match traverseTargets r l with
      | Option.some os => Except.ok os
      | Option.none => Except.error "Failed to generate result during pipeline" := by
    rw [process_arr (setExtraTargets r t2) l htg2 h2, traverseTargets_setExtraTargets]
  refine ⟨by rw [hp1, hp2], fun l0 => rfl, ?_⟩
  intro l0 outs htg0 hpo
  have hl0 : l0 = l := by
    rw [htg0] at htg
    simpa using htg
  rw [hl0]
  rw [hp1] at hpo
  cases htr : traverseTargets r l with
  | none => rw [htr] at hpo; simp at hpo
  | some os =>
    rw [htr] at hpo
    simp only [Except.ok.injEq] at hpo
    subst hpo
    exact traverseTargets_actors r l os htr

/-- Witness for C9: adding a target-list override of another actor changes
allTargets but not the processing of the plain request. -/
theorem extra_targets_witness :
    process (setExtraTargets baseReq Option.none) =
      process (setExtraTargets baseReq (Option.some [otherActor])) ∧
    (setExtraTargets baseReq (Option.some [otherActor])).allTargets =
      TargetsVal.arr [otherActor] := by
  have h := extra_targets_override_no_frame_effect baseReq Option.none
    (Option.some [otherActor]) rfl rfl
  exact ⟨h.1, h.2.1 [otherActor]⟩

/-- Claim C10: for every request that passes validation, each target context
has a defined result after the pipeline stages, so process never reaches the
missing-result error branch and succeeds. -/
theorem pipeline_result_defined (r : DamageRequest) (h : r.validate = true) :
    (∀ a, ((runPipeline r a).result).isSome = true) ∧
    ∃ outs, process r = Except.ok outs := by
  have hres : ∀ a, ((runPipeline r a).result).isSome = true := by
    intro a
    by_cases hov : overridePathTaken r = true
    · cases htot : r.overrides.total with
      | none => simp [overridePathTaken, htot] at hov
      | some tv =>
        simp [runPipeline, overrideResult, resolveAffinity_req, initContext_req, hov, htot]
    · have hov2 : overridePathTaken r = false := by simpa using hov
      simp [runPipeline, overrideResult, resolveAffinity_req, initContext_req, hov2,
        calculateResult]
  refine ⟨hres, ?_⟩
  have harr : r.targets.isArray = true := by
    rw [validate_eq] at h
    exact (Bool.and_eq_true_iff.mp h).2
  have htrav : ∀ l0 : List Actor, ∃ outs, traverseTargets r l0 = Option.some outs := by
    intro l0
    induction l0 with
    | nil => exact ⟨[], rfl⟩
    | cons a l1 ih =>
      obtain ⟨outs, ho⟩ := ih
      have hs := hres a
      cases hr : (runPipeline r a).result with
      | none => rw [hr] at hs; simp at hs
      | some res =>
        refine ⟨⟨a, res, "resources.hp", jneg res, (runPipeline r a).affinity,
          (runPipeline r a).affinityMessage, (runPipeline r a).bonuses,
          (runPipeline r a).modifiers⟩ :: outs, ?_⟩
        simp only [traverseTargets, processTarget, hr, ho]
  cases htg : r.targets with
  | arr l =>
    obtain ⟨outs, ho⟩ := htrav l
    refine ⟨outs, ?_⟩
    rw [process_arr r l htg h, ho]
  | truthyNonArray => rw [htg] at harr; simp [TargetsVal.isArray] at harr
  | falsy => rw [htg] at harr; simp [TargetsVal.isArray] at harr

/-- Witness for C10 at the plain valid request. -/
theorem pipeline_result_defined_witness :
    baseReq.validate = true ∧
    ((runPipeline baseReq neutralActor).result).isSome = true :=
  ⟨rfl, (pipeline_result_defined baseReq rfl).1 neutralActor⟩

end ProjectFU
